import Mathlib

/-!
# Verification of the fwupd device-list core (`src/fu-device-list.c`)

Shallow embedding of the device registry: `FuDeviceList` holds an ordered
sequence of `FuDeviceItem`s, each pairing a device address with the state of
its pending-removal timer (`remove_id`).  Devices themselves are mutable
(GObject) records addressed by pointer; we model the heap as a function from
addresses (`Nat`) to `FuDevice` records.  Signal emissions are collected as
an explicit event list.

The C timer (`g_timeout_add` / `g_source_remove`) is modelled by the
`remove_id : Option Nat` field (`some ms` ⇔ a timer scheduled for `ms`
milliseconds is live, i.e. `remove_id > 0` in C)
together with an explicit `fire` operation that runs
`fu_device_list_device_delayed_remove_cb`; a `fire` on an address that has no
scheduled timer is a no-op, mirroring the fact that a cancelled or absent
GSource never fires.
-/

/-- One device record, as seen through the capability surface the registry
uses: `fu_device_get_id`, `fu_device_get_equivalent_id` (`none` models a
NULL string), `fu_device_has_guid`, `fu_device_get_remove_delay`,
`fu_device_set_flags`. -/
structure FuDevice where
  id : String
  equivalent_id : Option String
  guids : List String
  remove_delay : Nat
  flags : Nat
  deriving Repr, DecidableEq

/-- `FWUPD_DEVICE_FLAG_NONE` from `fwupd-enums.h`: the flag value the
registry writes while a delayed removal is pending ("we can't do anything
with an unconnected device"). -/
def FWUPD_DEVICE_FLAG_NONE : Nat := 0

/-- `FuDeviceItem`: the per-registration record.  `device` is the device's
address (pointer identity); `remove_id` models the GSource handle of the
removal timeout: `none` when no timer is scheduled (C: `remove_id == 0`),
`some ms` when a timer scheduled with `g_timeout_add (ms, ...)` is live. -/
structure FuDeviceItem where
  device : Nat
  remove_id : Option Nat
  deriving Repr, DecidableEq

/-- `FuDeviceList`: the ordered item sequence (C: `GPtrArray *devices`). -/
structure FuDeviceList where
  devices : List FuDeviceItem
  deriving Repr, DecidableEq

/-- The world: the registry plus the device heap (device state by address). -/
structure World where
  dl : FuDeviceList
  dev : Nat → FuDevice

/-- The three lifecycle signals, carrying the device address. -/
inductive Ev where
  | added (d : Nat)
  | removed (d : Nat)
  | changed (d : Nat)
  deriving Repr, DecidableEq

/-- `fu_device_has_guid`: membership in the device's GUID list. -/
def fu_device_has_guid (d : FuDevice) (guid : String) : Bool :=
  d.guids.contains guid

/-- Lookup error results (`FWUPD_ERROR_NOT_FOUND` / `FWUPD_ERROR_NOT_SUPPORTED`,
each with the formatted message the C code passes to `g_set_error`). -/
inductive FwupdError where
  | NotFound (msg : String)
  | NotSupported (msg : String)
  deriving Repr, DecidableEq

/-- `fu_device_list_find_by_device`: first item whose device pointer equals
the argument. -/
def fu_device_list_find_by_device (self : FuDeviceList) (device : Nat) :
    Option FuDeviceItem :=
  self.devices.find? (fun item => item.device == device)

/-- Update the first item matching `p` (the C code mutates, through the
pointer returned by `fu_device_list_find_by_device`, exactly that item). -/
def updateFirst (p : FuDeviceItem → Bool) (f : FuDeviceItem → FuDeviceItem) :
    List FuDeviceItem → List FuDeviceItem
  | [] => []
  | x :: xs => if p x then f x :: xs else x :: updateFirst p f xs

/-- `fu_device_list_get_all`: the devices of all items, in insertion order. -/
def fu_device_list_get_all (self : FuDeviceList) : List Nat :=
  self.devices.map (fun item => item.device)

/-- `fu_device_list_add`.  If an item for this device address exists, cancel
any pending timer on it and emit `changed`; otherwise append a fresh item
(`remove_id = 0`) and emit `added`. -/
def fu_device_list_add (w : World) (device : Nat) : World × List Ev :=
  match fu_device_list_find_by_device w.dl device with
  | some _ =>
      ({ w with dl := ⟨updateFirst (fun it => it.device == device)
            (fun it => { it with remove_id := none }) w.dl.devices⟩ },
       [Ev.changed device])
  | none =>
      ({ w with dl := ⟨w.dl.devices ++ [⟨device, none⟩]⟩ },
       [Ev.added device])

/-- `fu_device_list_remove`.  Absent device: silent no-op.  Present: cancel
any existing timer; then if `remove_delay > 0`, set the device's flags to
`FWUPD_DEVICE_FLAG_NONE`, schedule the removal timer and emit nothing, else
emit `removed` and drop the item (`g_ptr_array_remove` drops exactly the
found item, i.e. the first with this address). -/
def fu_device_list_remove (w : World) (device : Nat) : World × List Ev :=
  match fu_device_list_find_by_device w.dl device with
  | none => (w, [])
  | some item =>
      if (w.dev item.device).remove_delay > 0 then
        ({ dl := ⟨updateFirst (fun it => it.device == device)
              (fun it => { it with
                remove_id := some (w.dev item.device).remove_delay }) w.dl.devices⟩,
           dev := fun a =>
             if a = item.device then
               { w.dev a with flags := FWUPD_DEVICE_FLAG_NONE }
             else w.dev a },
         [])
      else
        ({ w with dl := ⟨w.dl.devices.eraseP (fun it => it.device == device)⟩ },
         [Ev.removed device])

/-- `fu_device_list_device_delayed_remove_cb`, as reachable through a live
GSource: it only runs for an item whose timer is scheduled.  It clears
`remove_id`, emits `removed` and drops the item.  When no timer is scheduled
for this address (cancelled or never set) the callback cannot run, modelled
as a no-op. -/
def fu_device_list_fire (w : World) (device : Nat) : World × List Ev :=
  match fu_device_list_find_by_device w.dl device with
  | some item =>
      if item.remove_id.isSome then
        ({ w with dl := ⟨w.dl.devices.eraseP (fun it => it.device == device)⟩ },
         [Ev.removed device])
      else (w, [])
  | none => (w, [])

/-- `fu_device_list_find_by_guid`: linear scan for the first item whose
device has the GUID; otherwise `FWUPD_ERROR_NOT_FOUND` with message
`"GUID <g> was not found"`.  The result carries the device address. -/
def fu_device_list_find_by_guid (w : World) (guid : String) :
    Except FwupdError Nat :=
  match w.dl.devices.find? (fun item => fu_device_has_guid (w.dev item.device) guid) with
  | some item => Except.ok item.device
  | none => Except.error (FwupdError.NotFound ("GUID " ++ guid ++ " was not found"))

/-- The candidate identifier array of `fu_device_list_find_by_id`:
`{ fu_device_get_id, fu_device_get_equivalent_id, NULL }`, scanned up to the
first NULL.  `fu_device_get_id` is assumed non-NULL (every constructed
device has one). -/
def candidateIds (d : FuDevice) : List String :=
  match d.equivalent_id with
  | some e => [d.id, e]
  | none => [d.id]

/-- `strncmp (cand, q, strlen q) == 0` for NUL-free C strings: `q` is a
byte-wise prefix of `cand` (if `cand` is shorter than `q` the comparison
fails at `cand`'s terminator). -/
def idMatches (q cand : String) : Bool :=
  q.data.isPrefixOf cand.data

/-- The accumulator state of the scan loop in `fu_device_list_find_by_id`:
the C locals `item` and `multiple_matches`. -/
def findByIdStep (q : String) (w : World)
    (acc : Option FuDeviceItem × Bool) (item_tmp : FuDeviceItem) :
    Option FuDeviceItem × Bool :=
  (candidateIds (w.dev item_tmp.device)).foldl
    (fun acc2 cand =>
      if idMatches q cand then
        (some item_tmp, acc2.2 || acc2.1.isSome)
      else acc2)
    acc

/-- `fu_device_list_find_by_id`: abbreviated-hash lookup.  For every item
the two candidate identifiers are tested with
`strncmp (ids[j], device_id, strlen device_id)`; each match records the item
and, if a previous match had already recorded one (`item != NULL`), sets
`multiple_matches`. -/
def fu_device_list_find_by_id (w : World) (device_id : String) :
    Except FwupdError Nat :=
  match w.dl.devices.foldl (findByIdStep device_id w) (none, false) with
  | (none, _) =>
      Except.error (FwupdError.NotFound
        ("device ID " ++ device_id ++ " was not found"))
  | (some _, true) =>
      Except.error (FwupdError.NotSupported
        ("device ID " ++ device_id ++ " was not unique"))
  | (some item, false) => Except.ok item.device

/-- One producer/event-loop step: an `add` call, a `remove` call, or the
firing of a scheduled removal timer. -/
inductive Op where
  | add (d : Nat)
  | remove (d : Nat)
  | fire (d : Nat)
  deriving Repr, DecidableEq

/-- Dispatch one operation. -/
def stepOp (w : World) : Op → World × List Ev
  | Op.add d => fu_device_list_add w d
  | Op.remove d => fu_device_list_remove w d
  | Op.fire d => fu_device_list_fire w d

/-- Run a sequence of operations, collecting all emitted events in order. -/
def runOps (w : World) : List Op → World × List Ev
  | [] => (w, [])
  | op :: ops =>
      let (w1, evs1) := stepOp w op
      let (w2, evs2) := runOps w1 ops
      (w2, evs1 ++ evs2)

/-- `fu_device_list_new` paired with an arbitrary device heap: the registry
starts with no items. -/
def initWorld (heap : Nat → FuDevice) : World :=
  ⟨⟨[]⟩, heap⟩

/-- Liveness of a device address: there is an item for it in the registry. -/
def isLive (w : World) (d : Nat) : Bool :=
  (fu_device_list_find_by_device w.dl d).isSome

/-- Pointer uniqueness of the registry: no two items share a device address
(invariant 1 of the spec, maintained by construction of `add`). -/
def regNodup (w : World) : Prop :=
  (w.dl.devices.map (fun it => it.device)).Nodup

/-! ### Helper lemmas about `updateFirst`, `eraseP` and `find?` -/

lemma updateFirst_map_device (p : FuDeviceItem → Bool) (f : FuDeviceItem → FuDeviceItem)
    (hf : ∀ it, (f it).device = it.device) :
    ∀ l : List FuDeviceItem,
      (updateFirst p f l).map (fun it => it.device) = l.map (fun it => it.device)
  | [] => rfl
  | x :: xs => by
    by_cases h : p x
    · simp [updateFirst, h, hf]
    · simp [updateFirst, h, updateFirst_map_device p f hf xs]

lemma updateFirst_of_no_match (p : FuDeviceItem → Bool) (f : FuDeviceItem → FuDeviceItem) :
    ∀ l : List FuDeviceItem, (∀ x ∈ l, p x = false) → updateFirst p f l = l
  | [], _ => rfl
  | x :: xs, h => by
    have hx : p x = false := h x (List.mem_cons_self x xs)
    simp [updateFirst, hx, updateFirst_of_no_match p f xs
      (fun y hy => h y (List.mem_cons_of_mem x hy))]

lemma updateFirst_append_right (p : FuDeviceItem → Bool) (f : FuDeviceItem → FuDeviceItem) :
    ∀ (l1 l2 : List FuDeviceItem), (∀ x ∈ l1, p x = false) →
      updateFirst p f (l1 ++ l2) = l1 ++ updateFirst p f l2
  | [], l2, _ => rfl
  | x :: xs, l2, h => by
    have hx : p x = false := h x (List.mem_cons_self x xs)
    simp [updateFirst, hx, updateFirst_append_right p f xs l2
      (fun y hy => h y (List.mem_cons_of_mem x hy))]

lemma find?_updateFirst_same (d : Nat) (f : FuDeviceItem → FuDeviceItem)
    (hf : ∀ it, (f it).device = it.device) :
    ∀ l : List FuDeviceItem,
      (updateFirst (fun it => it.device == d) f l).find? (fun it => it.device == d)
        = (l.find? (fun it => it.device == d)).map f
  | [] => rfl
  | x :: xs => by
    by_cases h : x.device = d
    · have hb : (x.device == d) = true := by simp [h]
      have hfb : ((f x).device == d) = true := by simp [hf, h]
      simp only [updateFirst, hb, if_true]
      rw [List.find?_cons_of_pos (p := fun it => it.device == d) (a := f x) _ hfb,
        List.find?_cons_of_pos (p := fun it => it.device == d) (a := x) _ hb]
      rfl
    · have hb : (x.device == d) = false := by simp [h]
      simp only [updateFirst, hb, Bool.false_eq_true, if_false]
      rw [List.find?_cons_of_neg (p := fun it => it.device == d) (a := x) _ (by simp [h]),
        List.find?_cons_of_neg (p := fun it => it.device == d) (a := x) _ (by simp [h])]
      exact find?_updateFirst_same d f hf xs

lemma find?_updateFirst_other (d d' : Nat) (f : FuDeviceItem → FuDeviceItem)
    (hne : d ≠ d') (hf : ∀ it, (f it).device = it.device) :
    ∀ l : List FuDeviceItem,
      (updateFirst (fun it => it.device == d') f l).find? (fun it => it.device == d)
        = l.find? (fun it => it.device == d)
  | [] => rfl
  | x :: xs => by
    by_cases h' : x.device = d'
    · have hb' : (x.device == d') = true := by simp [h']
      have hq : ¬ ((f x).device == d) = true := by
        rw [hf x, h']
        simpa using hne.symm
      have hq0 : ¬ (x.device == d) = true := by
        rw [h']
        simpa using hne.symm
      simp only [updateFirst, hb', if_true]
      rw [List.find?_cons_of_neg (p := fun it => it.device == d) (a := f x) _ hq,
        List.find?_cons_of_neg (p := fun it => it.device == d) (a := x) _ hq0]
    · have hb' : (x.device == d') = false := by simp [h']
      simp only [updateFirst, hb', Bool.false_eq_true, if_false]
      by_cases h : x.device = d
      · rw [List.find?_cons_of_pos (p := fun it => it.device == d) (a := x) _ (by simp [h]),
          List.find?_cons_of_pos (p := fun it => it.device == d) (a := x) _ (by simp [h])]
      · rw [List.find?_cons_of_neg (p := fun it => it.device == d) (a := x) _ (by simp [h]),
          List.find?_cons_of_neg (p := fun it => it.device == d) (a := x) _ (by simp [h])]
        exact find?_updateFirst_other d d' f hne hf xs

lemma find?_eraseP_other {pe q : FuDeviceItem → Bool}
    (h : ∀ x, pe x = true → q x = false) :
    ∀ l : List FuDeviceItem, (l.eraseP pe).find? q = l.find? q
  | [] => rfl
  | x :: xs => by
    by_cases hx : pe x = true
    · have hqx : ¬ q x = true := by simp [h x hx]
      rw [List.eraseP_cons_of_pos (p := pe) (a := x) hx,
        List.find?_cons_of_neg (p := q) (a := x) _ hqx]
    · by_cases hqx : q x = true
      · rw [List.eraseP_cons_of_neg (p := pe) (a := x) hx,
          List.find?_cons_of_pos (p := q) (a := x) _ hqx,
          List.find?_cons_of_pos (p := q) (a := x) _ hqx]
      · rw [List.eraseP_cons_of_neg (p := pe) (a := x) hx,
          List.find?_cons_of_neg (p := q) (a := x) _ hqx,
          List.find?_cons_of_neg (p := q) (a := x) _ hqx]
        exact find?_eraseP_other h xs

lemma find?_eraseP_self (d : Nat) :
    ∀ l : List FuDeviceItem, (l.map (fun it => it.device)).Nodup →
      (l.eraseP (fun it => it.device == d)).find? (fun it => it.device == d) = none
  | [], _ => rfl
  | x :: xs, hnd => by
    have hnd' := hnd
    rw [List.map_cons, List.nodup_cons] at hnd'
    by_cases hx : x.device = d
    · have hb : ((fun it : FuDeviceItem => it.device == d) x) = true := by simp [hx]
      rw [List.eraseP_cons_of_pos (p := fun it => it.device == d) (a := x) hb]
      rw [List.find?_eq_none]
      intro y hy
      simp only [beq_iff_eq]
      intro hyd
      exact hnd'.1 (by rw [hx, ← hyd]; exact List.mem_map_of_mem _ hy)
    · have hb : ¬ ((fun it : FuDeviceItem => it.device == d) x) = true := by simp [hx]
      rw [List.eraseP_cons_of_neg (p := fun it => it.device == d) (a := x) hb,
        List.find?_cons_of_neg (p := fun it => it.device == d) (a := x) _ hb]
      exact find?_eraseP_self d xs hnd'.2

lemma nodup_map_eraseP (pe : FuDeviceItem → Bool) (l : List FuDeviceItem)
    (h : (l.map (fun it => it.device)).Nodup) :
    ((l.eraseP pe).map (fun it => it.device)).Nodup :=
  List.Nodup.sublist (List.Sublist.map _ (List.eraseP_sublist l)) h

/-! ### Claim C7: removing an absent device is a no-op -/

/-- C7.  For every device `d` that has no Item in the registry, `remove(d)`
is a no-op: it emits no event, does not fail, and leaves the registry state
(items and pending timers) and the device heap unchanged. -/
theorem remove_absent_is_noop (w : World) (d : Nat)
    (h : fu_device_list_find_by_device w.dl d = none) :
    fu_device_list_remove w d = (w, []) := by
  unfold fu_device_list_remove
  rw [h]

/-- Concrete device records used to instantiate hypotheses of the theorems
on explicit worlds. -/
def devTwoIds : FuDevice := ⟨"aa", some "ab", ["G1"], 200, 7⟩

def devOneId : FuDevice := ⟨"aa", none, ["G1"], 200, 7⟩

def devNoDelay : FuDevice := ⟨"bb", none, ["G2"], 0, 7⟩

def heapOneId : Nat → FuDevice := fun _ => devOneId

def heapTwoIds : Nat → FuDevice := fun _ => devTwoIds

/-- Witness for C7 at a world with a single item for address 1: removing
address 2 changes nothing and emits nothing. -/
theorem remove_absent_is_noop_witness :
    fu_device_list_remove ⟨⟨[⟨1, none⟩]⟩, heapOneId⟩ 2 = (⟨⟨[⟨1, none⟩]⟩, heapOneId⟩, []) :=
  remove_absent_is_noop ⟨⟨[⟨1, none⟩]⟩, heapOneId⟩ 2 rfl

/-! ### Claim C5: add is idempotent up to the added/changed emission -/

/-- C5.  For a device `d` not currently in the registry, `add(d); add(d)`
emits `added` then `changed`, and the resulting registry state equals the
state after a single `add(d)`. -/
theorem add_add_same_as_add (w : World) (d : Nat)
    (h : fu_device_list_find_by_device w.dl d = none) :
    ∃ w1,
      fu_device_list_add w d = (w1, [Ev.added d]) ∧
      fu_device_list_add w1 d = (w1, [Ev.changed d]) := by
  have h' : w.dl.devices.find? (fun it => it.device == d) = none := h
  have habsent : ∀ x ∈ w.dl.devices, ((fun it : FuDeviceItem => it.device == d) x) = false := by
    rw [List.find?_eq_none] at h'
    intro x hx
    simpa using h' x hx
  refine ⟨{ w with dl := ⟨w.dl.devices ++ [⟨d, none⟩]⟩ }, ?_, ?_⟩
  · unfold fu_device_list_add
    rw [h]
  · have hfind : fu_device_list_find_by_device ⟨w.dl.devices ++ [⟨d, none⟩]⟩ d
        = some ⟨d, none⟩ := by
      show List.find? (fun it => it.device == d)
          (w.dl.devices ++ [(⟨d, none⟩ : FuDeviceItem)])
        = some (⟨d, none⟩ : FuDeviceItem)
      rw [List.find?_append, h']
      simp [List.find?]
    unfold fu_device_list_add
    rw [hfind]
    have hupd : updateFirst (fun it => it.device == d)
        (fun it => { it with remove_id := none }) (w.dl.devices ++ [⟨d, none⟩])
        = w.dl.devices ++ [⟨d, none⟩] := by
      rw [updateFirst_append_right _ _ _ _ habsent]
      simp [updateFirst]
    simp only [hupd]

/-- Witness for C5 on the empty registry and address 1. -/
theorem add_add_same_as_add_witness :
    ∃ w1,
      fu_device_list_add (initWorld heapOneId) 1 = (w1, [Ev.added 1]) ∧
      fu_device_list_add w1 1 = (w1, [Ev.changed 1]) :=
  add_add_same_as_add (initWorld heapOneId) 1 rfl

/-! ### Claim C1: re-adding inside the removal window -/

/-- C1.  If the registry holds an item for `d` with a pending removal timer,
then `add(d)` emits exactly one `changed` event (and no `removed`), cancels
the timer — so a later firing of the old timer is impossible and produces
nothing — and leaves `d` in the registry with the same item order and an
untouched device heap. -/
theorem readd_cancels_pending_removal (w : World) (d : Nat) (it : FuDeviceItem)
    (hfind : fu_device_list_find_by_device w.dl d = some it)
    (hpend : it.remove_id.isSome = true) :
    ∃ w1,
      fu_device_list_add w d = (w1, [Ev.changed d]) ∧
      fu_device_list_find_by_device w1.dl d = some ⟨d, none⟩ ∧
      fu_device_list_fire w1 d = (w1, []) ∧
      fu_device_list_get_all w1.dl = fu_device_list_get_all w.dl ∧
      w1.dev = w.dev := by
  have hdev : it.device = d := by
    have := List.find?_some hfind
    simpa using this
  have hf : ∀ x : FuDeviceItem,
      ((fun y : FuDeviceItem => { y with remove_id := none }) x).device = x.device :=
    fun _ => rfl
  have key : (updateFirst (fun x => x.device == d)
        (fun x : FuDeviceItem => { x with remove_id := none })
        w.dl.devices).find? (fun x => x.device == d) = some ⟨d, none⟩ := by
    rw [find?_updateFirst_same d _ hf w.dl.devices]
    have h2 : w.dl.devices.find? (fun x => x.device == d) = some it := hfind
    rw [h2]
    simp [hdev]
  refine ⟨{ w with dl := ⟨updateFirst (fun x => x.device == d)
      (fun x => { x with remove_id := none }) w.dl.devices⟩ }, ?_, key, ?_, ?_, rfl⟩
  · unfold fu_device_list_add
    rw [hfind]
  · have hfind1 : fu_device_list_find_by_device
        ⟨updateFirst (fun x => x.device == d)
          (fun x : FuDeviceItem => { x with remove_id := none }) w.dl.devices⟩ d
        = some ⟨d, none⟩ := key
    unfold fu_device_list_fire
    rw [hfind1]
    rfl
  · exact updateFirst_map_device _ _ hf w.dl.devices

/-- Witness for C1 at a one-item registry whose item has a live timer. -/
theorem readd_cancels_pending_removal_witness :
    ∃ w1,
      fu_device_list_add ⟨⟨[⟨1, some 200⟩]⟩, heapOneId⟩ 1 = (w1, [Ev.changed 1]) ∧
      fu_device_list_find_by_device w1.dl 1 = some ⟨1, none⟩ ∧
      fu_device_list_fire w1 1 = (w1, []) ∧
      fu_device_list_get_all w1.dl
        = fu_device_list_get_all ((⟨⟨[⟨1, some 200⟩]⟩, heapOneId⟩ : World)).dl ∧
      w1.dev = ((⟨⟨[⟨1, some 200⟩]⟩, heapOneId⟩ : World)).dev :=
  readd_cancels_pending_removal ⟨⟨[⟨1, some 200⟩]⟩, heapOneId⟩ 1 ⟨1, some 200⟩ rfl rfl

/-! ### Claim C3: delayed removal schedules a timer; the firing removes -/

/-- C3.  Removing a present device whose `remove_delay` is positive sets the
device's flags to `FWUPD_DEVICE_FLAG_NONE` (the "disconnected" marking),
schedules the pending-removal timer for `remove_delay` milliseconds, and
emits nothing; when that timer later fires with no intervening operation,
exactly one `removed` event is emitted and the item is dropped from the
registry. -/
theorem delayed_removal_then_fire (w : World) (d : Nat) (it : FuDeviceItem)
    (hnodup : regNodup w)
    (hfind : fu_device_list_find_by_device w.dl d = some it)
    (hdelay : 0 < (w.dev d).remove_delay) :
    ∃ w1,
      fu_device_list_remove w d = (w1, []) ∧
      (w1.dev d).flags = FWUPD_DEVICE_FLAG_NONE ∧
      fu_device_list_find_by_device w1.dl d = some ⟨d, some ((w.dev d).remove_delay)⟩ ∧
      fu_device_list_get_all w1.dl = fu_device_list_get_all w.dl ∧
      (fu_device_list_fire w1 d).2 = [Ev.removed d] ∧
      fu_device_list_find_by_device ((fu_device_list_fire w1 d).1).dl d = none := by
  have hdev : it.device = d := by simpa using List.find?_some hfind
  have hdelay' : (w.dev it.device).remove_delay > 0 := by rw [hdev]; exact hdelay
  have hf : ∀ x : FuDeviceItem, ((fun y : FuDeviceItem =>
      { y with remove_id := some (w.dev it.device).remove_delay }) x).device = x.device :=
    fun _ => rfl
  have key : (updateFirst (fun x => x.device == d)
      (fun x : FuDeviceItem => { x with remove_id := some (w.dev it.device).remove_delay })
      w.dl.devices).find? (fun x => x.device == d)
      = some ⟨d, some ((w.dev d).remove_delay)⟩ := by
    rw [find?_updateFirst_same d _ hf w.dl.devices]
    have h2 : w.dl.devices.find? (fun x => x.device == d) = some it := hfind
    rw [h2]
    simp [hdev]
  have hnodup1 : ((updateFirst (fun x => x.device == d)
      (fun x : FuDeviceItem => { x with remove_id := some (w.dev it.device).remove_delay })
      w.dl.devices).map (fun x => x.device)).Nodup := by
    rw [updateFirst_map_device _ _ hf w.dl.devices]
    exact hnodup
  have hfire : fu_device_list_fire
      ⟨⟨updateFirst (fun x => x.device == d)
        (fun x : FuDeviceItem => { x with remove_id := some (w.dev it.device).remove_delay })
        w.dl.devices⟩,
        fun a => if a = it.device then { w.dev a with flags := FWUPD_DEVICE_FLAG_NONE }
          else w.dev a⟩ d
      = (⟨⟨(updateFirst (fun x => x.device == d)
          (fun x : FuDeviceItem => { x with remove_id := some (w.dev it.device).remove_delay })
          w.dl.devices).eraseP (fun x => x.device == d)⟩,
          fun a => if a = it.device then { w.dev a with flags := FWUPD_DEVICE_FLAG_NONE }
            else w.dev a⟩, [Ev.removed d]) := by
    have hfind1 : fu_device_list_find_by_device
        ⟨updateFirst (fun x => x.device == d)
          (fun x : FuDeviceItem => { x with remove_id := some (w.dev it.device).remove_delay })
          w.dl.devices⟩ d
        = some ⟨d, some ((w.dev d).remove_delay)⟩ := key
    unfold fu_device_list_fire
    rw [hfind1]
    rfl
  refine ⟨⟨⟨updateFirst (fun x => x.device == d)
      (fun x => { x with remove_id := some (w.dev it.device).remove_delay }) w.dl.devices⟩,
      fun a => if a = it.device then { w.dev a with flags := FWUPD_DEVICE_FLAG_NONE }
        else w.dev a⟩, ?_, ?_, key, ?_, ?_, ?_⟩
  · unfold fu_device_list_remove
    rw [hfind]
    exact if_pos hdelay'
  · show (if d = it.device then { w.dev d with flags := FWUPD_DEVICE_FLAG_NONE }
        else w.dev d).flags = FWUPD_DEVICE_FLAG_NONE
    rw [hdev]
    simp
  · exact updateFirst_map_device _ _ hf w.dl.devices
  · rw [hfire]
  · rw [hfire]
    exact find?_eraseP_self d _ hnodup1

/-- Witness for C3 at a one-item registry whose device has delay 200 ms. -/
theorem delayed_removal_then_fire_witness :
    (⟨⟨[⟨1, none⟩]⟩, heapOneId⟩ : World).dl.devices = [⟨1, none⟩] ∧
    0 < ((⟨⟨[⟨1, none⟩]⟩, heapOneId⟩ : World).dev 1).remove_delay ∧
    ∃ w1,
      fu_device_list_remove ⟨⟨[⟨1, none⟩]⟩, heapOneId⟩ 1 = (w1, []) ∧
      (w1.dev 1).flags = FWUPD_DEVICE_FLAG_NONE ∧
      fu_device_list_find_by_device w1.dl 1 = some ⟨1, some 200⟩ ∧
      fu_device_list_get_all w1.dl
        = fu_device_list_get_all ((⟨⟨[⟨1, none⟩]⟩, heapOneId⟩ : World)).dl ∧
      (fu_device_list_fire w1 1).2 = [Ev.removed 1] ∧
      fu_device_list_find_by_device ((fu_device_list_fire w1 1).1).dl 1 = none :=
  ⟨rfl, by decide,
    delayed_removal_then_fire ⟨⟨[⟨1, none⟩]⟩, heapOneId⟩ 1 ⟨1, none⟩
      (by simp [regNodup]) rfl (by decide)⟩

/-! ### Analysis of the `find_by_id` scan loop -/

/-- Number of candidate identifiers of one item that `q` prefix-matches:
how many times the inner loop of `fu_device_list_find_by_id` hits the
`strncmp == 0` branch for this item. -/
def itemMatchCount (w : World) (q : String) (it : FuDeviceItem) : Nat :=
  (candidateIds (w.dev it.device)).countP (fun c => idMatches q c)

lemma candidate_foldl_characterise (q : String) (it : FuDeviceItem) :
    ∀ (cs : List String) (acc : Option FuDeviceItem × Bool),
      cs.foldl (fun acc2 cand =>
          if idMatches q cand then (some it, acc2.2 || acc2.1.isSome) else acc2) acc
        = if cs.countP (fun c => idMatches q c) = 0 then acc
          else (some it, acc.2 || acc.1.isSome
                  || decide (2 ≤ cs.countP (fun c => idMatches q c)))
  | [], acc => by simp
  | c :: cs, acc => by
    by_cases hc : idMatches q c = true
    · rw [List.foldl_cons]
      rw [if_pos hc]
      rw [candidate_foldl_characterise q it cs (some it, acc.2 || acc.1.isSome)]
      rw [List.countP_cons_of_pos _ _ hc]
      by_cases h0 : cs.countP (fun c => idMatches q c) = 0
      · rw [if_pos h0]
        rw [if_neg (by omega)]
        have : ¬ 2 ≤ cs.countP (fun c => idMatches q c) + 1 := by omega
        simp [this]
      · rw [if_neg h0]
        rw [if_neg (by omega)]
        have h2 : 2 ≤ cs.countP (fun c => idMatches q c) + 1 := by omega
        simp [h2]
    · rw [List.foldl_cons]
      rw [if_neg hc]
      rw [candidate_foldl_characterise q it cs acc]
      rw [List.countP_cons_of_neg _ _ hc]

/-- The state transition of the outer loop of `fu_device_list_find_by_id`
for one item, in closed form. -/
lemma findByIdStep_characterise (q : String) (w : World)
    (acc : Option FuDeviceItem × Bool) (it : FuDeviceItem) :
    findByIdStep q w acc it
      = if itemMatchCount w q it = 0 then acc
        else (some it, acc.2 || acc.1.isSome || decide (2 ≤ itemMatchCount w q it)) :=
  candidate_foldl_characterise q it (candidateIds (w.dev it.device)) acc

lemma foldl_findByIdStep_no_match (q : String) (w : World) :
    ∀ (l : List FuDeviceItem) (acc : Option FuDeviceItem × Bool),
      (∀ x ∈ l, itemMatchCount w q x = 0) →
      l.foldl (findByIdStep q w) acc = acc
  | [], _, _ => rfl
  | x :: xs, acc, h => by
    rw [List.foldl_cons, findByIdStep_characterise,
      if_pos (h x (List.mem_cons_self x xs))]
    exact foldl_findByIdStep_no_match q w xs acc
      (fun y hy => h y (List.mem_cons_of_mem x hy))

lemma foldl_findByIdStep_preserve (q : String) (w : World) :
    ∀ (l : List FuDeviceItem) (acc : Option FuDeviceItem × Bool),
      (acc.1.isSome = true → (l.foldl (findByIdStep q w) acc).1.isSome = true) ∧
      (acc.2 = true → (l.foldl (findByIdStep q w) acc).2 = true)
  | [], acc => ⟨fun h => h, fun h => h⟩
  | x :: xs, acc => by
    rw [List.foldl_cons, findByIdStep_characterise]
    by_cases h0 : itemMatchCount w q x = 0
    · rw [if_pos h0]
      exact foldl_findByIdStep_preserve q w xs acc
    · rw [if_neg h0]
      refine ⟨fun _ => ?_, fun h2 => ?_⟩
      · exact (foldl_findByIdStep_preserve q w xs _).1 rfl
      · exact (foldl_findByIdStep_preserve q w xs _).2 (by simp [h2])

/-- Scan result when exactly one item matches, in terms of how many of its
candidate identifiers match. -/
lemma foldl_findByIdStep_single (q : String) (w : World)
    (l1 l2 : List FuDeviceItem) (it : FuDeviceItem)
    (h1 : ∀ x ∈ l1, itemMatchCount w q x = 0)
    (h2 : ∀ x ∈ l2, itemMatchCount w q x = 0)
    (hk : 1 ≤ itemMatchCount w q it) :
    (l1 ++ it :: l2).foldl (findByIdStep q w) (none, false)
      = (some it, decide (2 ≤ itemMatchCount w q it)) := by
  rw [List.foldl_append]
  rw [foldl_findByIdStep_no_match q w l1 _ h1]
  rw [List.foldl_cons, findByIdStep_characterise, if_neg (by omega)]
  rw [foldl_findByIdStep_no_match q w l2 _ h2]
  simp

lemma foldl_findByIdStep_two (q : String) (w : World)
    (x y : FuDeviceItem) (rest : List FuDeviceItem) (acc : Option FuDeviceItem × Bool)
    (hx : 1 ≤ itemMatchCount w q x) (hy : 1 ≤ itemMatchCount w q y) :
    ∃ z, (x :: y :: rest).foldl (findByIdStep q w) acc = (some z, true) := by
  rw [List.foldl_cons, findByIdStep_characterise, if_neg (by omega)]
  rw [List.foldl_cons, findByIdStep_characterise, if_neg (by omega)]
  simp only [Option.isSome_some, Bool.or_true, Bool.true_or]
  have h1 := (foldl_findByIdStep_preserve q w rest (some y, true)).1 rfl
  have h2 := (foldl_findByIdStep_preserve q w rest (some y, true)).2 rfl
  obtain ⟨z, hz⟩ := Option.isSome_iff_exists.mp h1
  exact ⟨z, by rw [Prod.ext_iff]; exact ⟨hz, h2⟩⟩

/-! ### Claim C2: a single item matching through both identifiers -/

/-- A world with exactly one registered item whose device carries both a
primary id `"aa"` and an equivalent id `"ab"`; the query `"a"`
prefix-matches both. -/
def cexWorld : World := ⟨⟨[⟨1, none⟩]⟩, heapTwoIds⟩

/-- Counterexample to C2.  The registry holds exactly one item; the query
`"a"` prefix-matches both of that single item's identifiers; yet
`find_by_id` reports `not unique` instead of returning the device: the scan
counts matching identifiers, not matching items
(`if (item != NULL) multiple_matches = TRUE` also fires on the second
identifier of the same item). -/
theorem find_by_id_both_ids_one_item_cex :
    cexWorld.dl.devices = [⟨1, none⟩] ∧
    idMatches "a" (cexWorld.dev 1).id = true ∧
    (cexWorld.dev 1).equivalent_id = some "ab" ∧
    idMatches "a" "ab" = true ∧
    fu_device_list_find_by_id cexWorld "a"
      = Except.error (FwupdError.NotSupported "device ID a was not unique") :=
  ⟨rfl, by decide, rfl, by decide, rfl⟩

/-- C2 (amended).  If exactly one item of the registry has a candidate
identifier that `q` prefix-matches, then: when exactly one of its candidate
identifiers matches, `find_by_id q` returns that item's device; when both
match, it reports `not unique`. -/
theorem find_by_id_unique_matching_item (w : World) (q : String) (it : FuDeviceItem)
    (hmem : it ∈ w.dl.devices)
    (hpos : 1 ≤ itemMatchCount w q it)
    (huniq : w.dl.devices.countP (fun x => decide (1 ≤ itemMatchCount w q x)) = 1) :
    (itemMatchCount w q it = 1 →
      fu_device_list_find_by_id w q = Except.ok it.device) ∧
    (2 ≤ itemMatchCount w q it →
      fu_device_list_find_by_id w q
        = Except.error (FwupdError.NotSupported
            ("device ID " ++ q ++ " was not unique"))) := by
  obtain ⟨l1, l2, hsplit⟩ := List.append_of_mem hmem
  have hcons : (it :: l2).countP (fun x => decide (1 ≤ itemMatchCount w q x))
      = l2.countP (fun x => decide (1 ≤ itemMatchCount w q x)) + 1 :=
    List.countP_cons_of_pos (p := fun x => decide (1 ≤ itemMatchCount w q x)) l2
      (by simp [hpos])
  have hcount := huniq
  rw [hsplit, List.countP_append, hcons] at hcount
  have hl1 : ∀ x ∈ l1, itemMatchCount w q x = 0 := by
    have h0 : l1.countP (fun x => decide (1 ≤ itemMatchCount w q x)) = 0 := by omega
    rw [List.countP_eq_zero] at h0
    intro x hx
    have h' : ¬ 1 ≤ itemMatchCount w q x := by simpa using h0 x hx
    omega
  have hl2 : ∀ x ∈ l2, itemMatchCount w q x = 0 := by
    have h0 : l2.countP (fun x => decide (1 ≤ itemMatchCount w q x)) = 0 := by omega
    rw [List.countP_eq_zero] at h0
    intro x hx
    have h' : ¬ 1 ≤ itemMatchCount w q x := by simpa using h0 x hx
    omega
  have hfold := foldl_findByIdStep_single q w l1 l2 it hl1 hl2 hpos
  constructor
  · intro h1
    unfold fu_device_list_find_by_id
    rw [hsplit, hfold, h1]
    rfl
  · intro h2
    have hdec : decide (2 ≤ itemMatchCount w q it) = true := decide_eq_true h2
    unfold fu_device_list_find_by_id
    rw [hsplit, hfold, hdec]

/-- Witness for the amended C2: a single-item registry with one matching
identifier returns the device; with two matching identifiers of the same
single item it reports `not unique`. -/
theorem find_by_id_unique_matching_item_witness :
    fu_device_list_find_by_id ⟨⟨[⟨1, none⟩]⟩, heapOneId⟩ "a" = Except.ok 1 ∧
    fu_device_list_find_by_id cexWorld "a"
      = Except.error (FwupdError.NotSupported "device ID a was not unique") :=
  ⟨(find_by_id_unique_matching_item ⟨⟨[⟨1, none⟩]⟩, heapOneId⟩ "a" ⟨1, none⟩
      (by decide) (by decide) (by decide)).1 (by decide),
   (find_by_id_unique_matching_item cexWorld "a" ⟨1, none⟩
      (by decide) (by decide) (by decide)).2 (by decide)⟩

/-! ### Claim C4: the empty query -/

lemma idMatches_nil_q (c : String) : idMatches "" c = true := by
  unfold idMatches
  have h : ("" : String).data = [] := rfl
  rw [h]
  exact List.isPrefixOf_nil_left

lemma itemMatchCount_nil_q (w : World) (it : FuDeviceItem) :
    itemMatchCount w "" it = (candidateIds (w.dev it.device)).length := by
  unfold itemMatchCount
  induction candidateIds (w.dev it.device) with
  | nil => rfl
  | cons c cs ih =>
      rw [List.countP_cons_of_pos _ _ (idMatches_nil_q c), ih, List.length_cons]

lemma one_le_itemMatchCount_nil_q (w : World) (it : FuDeviceItem) :
    1 ≤ itemMatchCount w "" it := by
  rw [itemMatchCount_nil_q]
  unfold candidateIds
  cases (w.dev it.device).equivalent_id <;> simp

/-- Counterexample to C4.  A registry holding exactly one item — whose
device carries an `equivalent_id` — makes `find_by_id("")` report
`not unique` rather than return that single item's device: the empty query
prefix-matches both identifiers of the one item. -/
theorem find_by_id_nil_q_single_item_cex :
    cexWorld.dl.devices.length = 1 ∧
    fu_device_list_find_by_id cexWorld ""
      = Except.error (FwupdError.NotSupported "device ID  was not unique") :=
  ⟨rfl, rfl⟩

/-- C4 (amended).  For the empty query: zero items give `NotFound`; a single
item whose device has no `equivalent_id` is returned; a single item whose
device has an `equivalent_id` gives `NotUnique` (both identifiers match the
zero-length prefix); two or more items give `NotUnique`. -/
theorem find_by_id_nil_q (w : World) :
    (w.dl.devices = [] →
      fu_device_list_find_by_id w ""
        = Except.error (FwupdError.NotFound "device ID  was not found")) ∧
    (∀ it, w.dl.devices = [it] → (w.dev it.device).equivalent_id = none →
      fu_device_list_find_by_id w "" = Except.ok it.device) ∧
    (∀ it, w.dl.devices = [it] → (w.dev it.device).equivalent_id ≠ none →
      fu_device_list_find_by_id w ""
        = Except.error (FwupdError.NotSupported "device ID  was not unique")) ∧
    (2 ≤ w.dl.devices.length →
      fu_device_list_find_by_id w ""
        = Except.error (FwupdError.NotSupported "device ID  was not unique")) := by
  refine ⟨?_, ?_, ?_, ?_⟩
  · intro h
    unfold fu_device_list_find_by_id
    rw [h]
    rfl
  · intro it hL hequiv
    have hcount : itemMatchCount w "" it = 1 := by
      rw [itemMatchCount_nil_q]
      simp [candidateIds, hequiv]
    have hfold : ([it] : List FuDeviceItem).foldl (findByIdStep "" w) (none, false)
        = (some it, decide (2 ≤ itemMatchCount w "" it)) :=
      foldl_findByIdStep_single "" w [] [] it (by simp) (by simp) (by omega)
    unfold fu_device_list_find_by_id
    rw [hL, hfold, hcount]
    rfl
  · intro it hL hequiv
    obtain ⟨e, he⟩ := Option.ne_none_iff_exists'.mp hequiv
    have hcount : itemMatchCount w "" it = 2 := by
      rw [itemMatchCount_nil_q]
      simp [candidateIds, he]
    have hfold : ([it] : List FuDeviceItem).foldl (findByIdStep "" w) (none, false)
        = (some it, decide (2 ≤ itemMatchCount w "" it)) :=
      foldl_findByIdStep_single "" w [] [] it (by simp) (by simp) (by omega)
    unfold fu_device_list_find_by_id
    rw [hL, hfold, hcount]
    rfl
  · intro hlen
    rcases hL : w.dl.devices with _ | ⟨x, _ | ⟨y, rest⟩⟩
    · rw [hL] at hlen
      simp at hlen
    · rw [hL] at hlen
      simp at hlen
    · obtain ⟨z, hz⟩ := foldl_findByIdStep_two "" w x y rest (none, false)
        (one_le_itemMatchCount_nil_q w x) (one_le_itemMatchCount_nil_q w y)
      unfold fu_device_list_find_by_id
      rw [hL, hz]
      rfl

/-- Witness for the amended C4 at zero-, one- and two-item registries. -/
theorem find_by_id_nil_q_witness :
    fu_device_list_find_by_id (initWorld heapOneId) ""
      = Except.error (FwupdError.NotFound "device ID  was not found") ∧
    fu_device_list_find_by_id ⟨⟨[⟨1, none⟩]⟩, heapOneId⟩ "" = Except.ok 1 ∧
    fu_device_list_find_by_id ⟨⟨[⟨1, none⟩, ⟨2, none⟩]⟩, heapOneId⟩ ""
      = Except.error (FwupdError.NotSupported "device ID  was not unique") :=
  ⟨(find_by_id_nil_q (initWorld heapOneId)).1 rfl,
   (find_by_id_nil_q ⟨⟨[⟨1, none⟩]⟩, heapOneId⟩).2.1 ⟨1, none⟩ rfl rfl,
   (find_by_id_nil_q ⟨⟨[⟨1, none⟩, ⟨2, none⟩]⟩, heapOneId⟩).2.2.2 (by decide)⟩

/-! ### Claim C10: queries longer than every identifier never match -/

lemma length_le_of_isPrefixOf : ∀ (l1 l2 : List Char),
    l1.isPrefixOf l2 = true → l1.length ≤ l2.length
  | [], _, _ => Nat.zero_le _
  | a :: as, [], h => by simp [List.isPrefixOf] at h
  | a :: as, b :: bs, h => by
    rw [List.isPrefixOf_cons₂] at h
    have h' := (Bool.and_eq_true _ _).mp h
    have ih := length_le_of_isPrefixOf as bs h'.2
    simp only [List.length_cons]
    omega

/-- C10.  If the query is strictly longer than every candidate identifier of
every registered item, `find_by_id` returns `NotFound`: the byte-wise
comparison of `q` against a shorter identifier fails at the identifier's
terminator. -/
theorem find_by_id_query_longer_not_found (w : World) (q : String)
    (h : ∀ it ∈ w.dl.devices, ∀ c ∈ candidateIds (w.dev it.device),
      c.length < q.length) :
    fu_device_list_find_by_id w q
      = Except.error (FwupdError.NotFound ("device ID " ++ q ++ " was not found")) := by
  have hall : ∀ it ∈ w.dl.devices, itemMatchCount w q it = 0 := by
    intro it hit
    unfold itemMatchCount
    rw [List.countP_eq_zero]
    intro c hc hmatch
    have hlen := length_le_of_isPrefixOf q.data c.data hmatch
    have hcq := h it hit c hc
    have hql : q.length = q.data.length := rfl
    have hcl : c.length = c.data.length := rfl
    omega
  unfold fu_device_list_find_by_id
  rw [foldl_findByIdStep_no_match q w w.dl.devices (none, false) hall]

/-- Witness for C10: id `"aa"` (length 2) against query `"aaa"` (length 3). -/
theorem find_by_id_query_longer_not_found_witness :
    (∀ it ∈ (⟨⟨[⟨1, none⟩]⟩, heapOneId⟩ : World).dl.devices,
      ∀ c ∈ candidateIds ((⟨⟨[⟨1, none⟩]⟩, heapOneId⟩ : World).dev it.device),
        c.length < ("aaa" : String).length) ∧
    fu_device_list_find_by_id ⟨⟨[⟨1, none⟩]⟩, heapOneId⟩ "aaa"
      = Except.error (FwupdError.NotFound "device ID aaa was not found") :=
  ⟨by decide, find_by_id_query_longer_not_found ⟨⟨[⟨1, none⟩]⟩, heapOneId⟩ "aaa" (by decide)⟩

/-! ### Claim C8: find_by_guid returns the first GUID match -/

/-- C8.  `find_by_guid g` returns `ok a` exactly when `a` is the device of
the first item (in insertion order) whose device has the GUID `g`, and
returns the `NotFound` error carrying `"GUID <g> was not found"` exactly
when no item's device has it.  Being a pure function of the registry, it
mutates nothing and emits nothing. -/
theorem find_by_guid_first_match (w : World) (g : String) :
    (∀ a, fu_device_list_find_by_guid w g = Except.ok a ↔
      ∃ it l1 l2, w.dl.devices = l1 ++ it :: l2 ∧ it.device = a ∧
        fu_device_has_guid (w.dev it.device) g = true ∧
        ∀ x ∈ l1, fu_device_has_guid (w.dev x.device) g = false) ∧
    (fu_device_list_find_by_guid w g
        = Except.error (FwupdError.NotFound ("GUID " ++ g ++ " was not found")) ↔
      ∀ it ∈ w.dl.devices, fu_device_has_guid (w.dev it.device) g = false) := by
  cases hf : w.dl.devices.find? (fun x => fu_device_has_guid (w.dev x.device) g) with
  | some it0 =>
    have hres : fu_device_list_find_by_guid w g = Except.ok it0.device := by
      unfold fu_device_list_find_by_guid
      rw [hf]
    obtain ⟨hguid0, l1, l2, hsplit0, hl10⟩ := List.find?_eq_some.mp hf
    constructor
    · intro a
      rw [hres]
      constructor
      · intro hok
        have ha : it0.device = a := by
          injection hok
        exact ⟨it0, l1, l2, hsplit0, ha, hguid0, fun x hx => by simpa using hl10 x hx⟩
      · rintro ⟨it, m1, m2, hsplit, ha, hguid, hm1⟩
        have hfind : w.dl.devices.find? (fun x => fu_device_has_guid (w.dev x.device) g)
            = some it :=
          List.find?_eq_some.mpr ⟨hguid, m1, m2, hsplit, fun x hx => by simp [hm1 x hx]⟩
        rw [hf] at hfind
        injection hfind with h
        rw [← ha, h]
    · rw [hres]
      constructor
      · intro habs
        exact absurd habs (by simp)
      · intro hall
        have hmem : it0 ∈ w.dl.devices := List.mem_of_find?_eq_some hf
        rw [hall it0 hmem] at hguid0
        simp at hguid0
  | none =>
    have hres : fu_device_list_find_by_guid w g
        = Except.error (FwupdError.NotFound ("GUID " ++ g ++ " was not found")) := by
      unfold fu_device_list_find_by_guid
      rw [hf]
    have hnone := List.find?_eq_none.mp hf
    constructor
    · intro a
      rw [hres]
      constructor
      · intro habs
        exact absurd habs (by simp)
      · rintro ⟨it, m1, m2, hsplit, ha, hguid, hm1⟩
        have hmem : it ∈ w.dl.devices := by
          rw [hsplit]
          exact List.mem_append_of_mem_right m1 (List.mem_cons_self it m2)
        exact absurd hguid (by simpa using hnone it hmem)
    · rw [hres]
      constructor
      · intro _ it hmem
        simpa using hnone it hmem
      · intro _
        rfl

/-- Witness for C8: GUID `"G1"` is found on the only item; GUID `"GX"` is
not found and yields the formatted error message. -/
theorem find_by_guid_first_match_witness :
    fu_device_list_find_by_guid ⟨⟨[⟨1, none⟩]⟩, heapOneId⟩ "G1" = Except.ok 1 ∧
    fu_device_list_find_by_guid ⟨⟨[⟨1, none⟩]⟩, heapOneId⟩ "GX"
      = Except.error (FwupdError.NotFound "GUID GX was not found") :=
  ⟨((find_by_guid_first_match ⟨⟨[⟨1, none⟩]⟩, heapOneId⟩ "G1").1 1).mpr
      ⟨⟨1, none⟩, [], [], rfl, rfl, by decide, by simp⟩,
   (find_by_guid_first_match ⟨⟨[⟨1, none⟩]⟩, heapOneId⟩ "GX").2.mpr (by decide)⟩

/-! ### Claim C9: a pending-removal item stays visible to reads -/

/-- The same item sequence with every pending timer discarded: the reference
registry in which nothing is marked for removal. -/
def clearTimers (dl : FuDeviceList) : FuDeviceList :=
  ⟨dl.devices.map (fun it => { it with remove_id := none })⟩

lemma isSome_map_clear (o : Option FuDeviceItem) :
    (o.map (fun it => { it with remove_id := none })).isSome = o.isSome := by
  cases o <;> rfl

lemma find?_map_clear (p : Nat → Bool) :
    ∀ l : List FuDeviceItem,
      (l.map (fun it => { it with remove_id := none })).find? (fun it => p it.device)
        = (l.find? (fun it => p it.device)).map (fun it => { it with remove_id := none })
  | [] => rfl
  | x :: xs => by
    rw [List.map_cons, List.find?_cons, List.find?_cons]
    cases hx : p x.device with
    | true => simp [hx]
    | false => simpa [hx] using find?_map_clear p xs

lemma find_by_guid_ignores_timers (w : World) (g : String) :
    fu_device_list_find_by_guid ⟨clearTimers w.dl, w.dev⟩ g
      = fu_device_list_find_by_guid w g := by
  unfold fu_device_list_find_by_guid
  rw [show (⟨clearTimers w.dl, w.dev⟩ : World).dl.devices
      = w.dl.devices.map (fun it => { it with remove_id := none }) from rfl]
  rw [find?_map_clear (fun a => fu_device_has_guid (w.dev a) g) w.dl.devices]
  cases w.dl.devices.find? (fun it => fu_device_has_guid (w.dev it.device) g) <;> rfl

lemma foldl_findByIdStep_map_clear (q : String) (w : World) :
    ∀ (l : List FuDeviceItem) (acc : Option FuDeviceItem × Bool),
      (l.map (fun it => { it with remove_id := none })).foldl
          (findByIdStep q ⟨clearTimers w.dl, w.dev⟩)
          (acc.1.map (fun it => { it with remove_id := none }), acc.2)
        = ((l.foldl (findByIdStep q w) acc).1.map (fun it => { it with remove_id := none }),
           (l.foldl (findByIdStep q w) acc).2)
  | [], acc => rfl
  | x :: xs, acc => by
    rw [List.map_cons, List.foldl_cons, List.foldl_cons]
    rw [findByIdStep_characterise, findByIdStep_characterise]
    have hcc : itemMatchCount ⟨clearTimers w.dl, w.dev⟩ q ⟨x.device, none⟩
        = itemMatchCount w q x := rfl
    rw [hcc]
    by_cases h0 : itemMatchCount w q x = 0
    · rw [if_pos h0, if_pos h0]
      exact foldl_findByIdStep_map_clear q w xs acc
    · rw [if_neg h0, if_neg h0]
      rw [isSome_map_clear]
      exact foldl_findByIdStep_map_clear q w xs
        (some x, acc.2 || acc.1.isSome || decide (2 ≤ itemMatchCount w q x))

lemma find_by_id_ignores_timers (w : World) (q : String) :
    fu_device_list_find_by_id ⟨clearTimers w.dl, w.dev⟩ q
      = fu_device_list_find_by_id w q := by
  have h0 : (w.dl.devices.map (fun it => { it with remove_id := none })).foldl
      (findByIdStep q ⟨clearTimers w.dl, w.dev⟩) (none, false)
      = ((w.dl.devices.foldl (findByIdStep q w) (none, false)).1.map
           (fun it => { it with remove_id := none }),
         (w.dl.devices.foldl (findByIdStep q w) (none, false)).2) :=
    foldl_findByIdStep_map_clear q w w.dl.devices (none, false)
  unfold fu_device_list_find_by_id
  rw [show (⟨clearTimers w.dl, w.dev⟩ : World).dl.devices
      = w.dl.devices.map (fun it => { it with remove_id := none }) from rfl]
  rw [h0]
  rcases w.dl.devices.foldl (findByIdStep q w) (none, false) with ⟨fst, snd⟩
  cases fst <;> cases snd <;> rfl

/-- C9.  An item whose removal is pending stays fully visible through the
read interface: its device is in `get_all`, and both lookups return exactly
what they would return on the registry with all timers cleared (they never
read `remove_id`); only the firing of the timer emits `removed` and drops
the item, after which `get_all` no longer reports the device. -/
theorem pending_item_remains_visible (w : World) (d : Nat) (it : FuDeviceItem)
    (hnodup : regNodup w)
    (hfind : fu_device_list_find_by_device w.dl d = some it)
    (hpend : it.remove_id.isSome = true) :
    d ∈ fu_device_list_get_all w.dl ∧
    (∀ g, fu_device_list_find_by_guid w g
        = fu_device_list_find_by_guid ⟨clearTimers w.dl, w.dev⟩ g) ∧
    (∀ q, fu_device_list_find_by_id w q
        = fu_device_list_find_by_id ⟨clearTimers w.dl, w.dev⟩ q) ∧
    (fu_device_list_fire w d).2 = [Ev.removed d] ∧
    d ∉ fu_device_list_get_all ((fu_device_list_fire w d).1).dl := by
  have hdev : it.device = d := by simpa using List.find?_some hfind
  have hfire : fu_device_list_fire w d
      = (⟨⟨w.dl.devices.eraseP (fun x => x.device == d)⟩, w.dev⟩, [Ev.removed d]) := by
    unfold fu_device_list_fire
    rw [hfind]
    exact if_pos hpend
  refine ⟨?_, fun g => (find_by_guid_ignores_timers w g).symm,
    fun q => (find_by_id_ignores_timers w q).symm, ?_, ?_⟩
  · have hmem := List.mem_of_find?_eq_some hfind
    rw [← hdev]
    exact List.mem_map_of_mem _ hmem
  · rw [hfire]
  · rw [hfire]
    intro hmem
    obtain ⟨x, hx, hxd⟩ := List.mem_map.mp hmem
    have hnone := find?_eraseP_self d w.dl.devices hnodup
    rw [List.find?_eq_none] at hnone
    exact absurd (by simp [hxd]) (hnone x hx)

/-- Witness for C9 at a one-item registry whose timer is pending. -/
theorem pending_item_remains_visible_witness :
    1 ∈ fu_device_list_get_all (⟨⟨[⟨1, some 200⟩]⟩, heapOneId⟩ : World).dl ∧
    (∀ g, fu_device_list_find_by_guid ⟨⟨[⟨1, some 200⟩]⟩, heapOneId⟩ g
        = fu_device_list_find_by_guid
            ⟨clearTimers (⟨⟨[⟨1, some 200⟩]⟩, heapOneId⟩ : World).dl, heapOneId⟩ g) ∧
    (∀ q, fu_device_list_find_by_id ⟨⟨[⟨1, some 200⟩]⟩, heapOneId⟩ q
        = fu_device_list_find_by_id
            ⟨clearTimers (⟨⟨[⟨1, some 200⟩]⟩, heapOneId⟩ : World).dl, heapOneId⟩ q) ∧
    (fu_device_list_fire ⟨⟨[⟨1, some 200⟩]⟩, heapOneId⟩ 1).2 = [Ev.removed 1] ∧
    1 ∉ fu_device_list_get_all
        ((fu_device_list_fire ⟨⟨[⟨1, some 200⟩]⟩, heapOneId⟩ 1).1).dl :=
  pending_item_remains_visible ⟨⟨[⟨1, some 200⟩]⟩, heapOneId⟩ 1 ⟨1, some 200⟩
    (by unfold regNodup; decide) rfl rfl

/-! ### Claim C6: the per-device event grammar -/

/-- The device address an event carries. -/
def evDevice : Ev → Nat
  | Ev.added d => d
  | Ev.removed d => d
  | Ev.changed d => d

/-- The event stream restricted to one device address. -/
def projEvents (d : Nat) (evs : List Ev) : List Ev :=
  evs.filter (fun e => evDevice e == d)

/-- One transition of the acceptor for the per-device event grammar
`(added changed* removed)* (added changed*)?`: the Boolean state records
whether the device is currently live (inside an `added … ` group).  `none`
means the event is illegal in this state — in particular `added` while
live, so two consecutive `added` are rejected. -/
def traceStep (live : Bool) : Ev → Option Bool
  | Ev.added _ => if live then none else some true
  | Ev.changed _ => if live then some true else none
  | Ev.removed _ => if live then some false else none

/-- Run the acceptor over an event list; `some b` means the list is a word
of the grammar and leaves the device live iff `b`, `none` means the list
violates the grammar. -/
def traceAccept : Bool → List Ev → Option Bool
  | live, [] => some live
  | live, e :: es =>
      match traceStep live e with
      | some live2 => traceAccept live2 es
      | none => none

lemma traceAccept_append (xs ys : List Ev) :
    ∀ (b b2 : Bool), traceAccept b xs = some b2 →
      traceAccept b (xs ++ ys) = traceAccept b2 ys := by
  induction xs with
  | nil =>
      intro b b2 h
      have hb : b = b2 := by simpa [traceAccept] using h
      rw [List.nil_append, hb]
  | cons e es ih =>
      intro b b2 h
      rw [List.cons_append]
      simp only [traceAccept] at h ⊢
      cases hs : traceStep b e with
      | none =>
          rw [hs] at h
          simp at h
      | some b1 =>
          rw [hs] at h
          exact ih b1 b2 h

lemma projEvents_append (d : Nat) (xs ys : List Ev) :
    projEvents d (xs ++ ys) = projEvents d xs ++ projEvents d ys := by
  simp [projEvents]

lemma projEvents_single_same (d : Nat) (e : Ev) (h : evDevice e = d) :
    projEvents d [e] = [e] := by
  simp [projEvents, h]

lemma projEvents_single_other (d : Nat) (e : Ev) (h : evDevice e ≠ d) :
    projEvents d [e] = [] := by
  simp [projEvents, h]

lemma isSome_map (f : FuDeviceItem → FuDeviceItem) (o : Option FuDeviceItem) :
    (o.map f).isSome = o.isSome := by
  cases o <;> rfl

lemma isLive_of_updateFirst (w : World) (wdev : Nat → FuDevice) (d d' : Nat)
    (f : FuDeviceItem → FuDeviceItem) (hf : ∀ x, (f x).device = x.device) :
    isLive ⟨⟨updateFirst (fun x => x.device == d') f w.dl.devices⟩, wdev⟩ d
      = isLive w d := by
  unfold isLive fu_device_list_find_by_device
  by_cases hd : d = d'
  · subst hd
    show ((updateFirst (fun x => x.device == d) f w.dl.devices).find?
        (fun x => x.device == d)).isSome = _
    rw [find?_updateFirst_same d f hf w.dl.devices]
    exact isSome_map f _
  · show ((updateFirst (fun x => x.device == d') f w.dl.devices).find?
        (fun x => x.device == d)).isSome = _
    rw [find?_updateFirst_other d d' f hd hf w.dl.devices]

lemma regNodup_updateFirst (w : World) (wdev : Nat → FuDevice) (d' : Nat)
    (f : FuDeviceItem → FuDeviceItem) (hf : ∀ x, (f x).device = x.device)
    (h : regNodup w) :
    regNodup ⟨⟨updateFirst (fun x => x.device == d') f w.dl.devices⟩, wdev⟩ := by
  show ((updateFirst (fun x => x.device == d') f w.dl.devices).map
      (fun x => x.device)).Nodup
  rw [updateFirst_map_device _ _ hf]
  exact h

lemma isLive_erase_other (w : World) (wdev : Nat → FuDevice) (d d' : Nat)
    (hne : d' ≠ d) :
    isLive ⟨⟨w.dl.devices.eraseP (fun x => x.device == d')⟩, wdev⟩ d = isLive w d := by
  have hpq : ∀ x : FuDeviceItem,
      (x.device == d') = true → (x.device == d) = false := by
    intro x hx
    simp only [beq_iff_eq] at hx
    rw [hx]
    simpa using hne
  unfold isLive fu_device_list_find_by_device
  show ((w.dl.devices.eraseP (fun x => x.device == d')).find?
      (fun x => x.device == d)).isSome = _
  rw [find?_eraseP_other hpq w.dl.devices]

lemma isLive_erase_self (w : World) (wdev : Nat → FuDevice) (d : Nat)
    (hnodup : regNodup w) :
    isLive ⟨⟨w.dl.devices.eraseP (fun x => x.device == d)⟩, wdev⟩ d = false := by
  unfold isLive fu_device_list_find_by_device
  show ((w.dl.devices.eraseP (fun x => x.device == d)).find?
      (fun x => x.device == d)).isSome = false
  rw [find?_eraseP_self d w.dl.devices hnodup]
  rfl

lemma regNodup_erase (w : World) (wdev : Nat → FuDevice)
    (pb : FuDeviceItem → Bool) (h : regNodup w) :
    regNodup ⟨⟨w.dl.devices.eraseP pb⟩, wdev⟩ :=
  nodup_map_eraseP pb w.dl.devices h

lemma add_liveness (w w1 : World) (evs : List Ev) (d d' : Nat)
    (hnodup : regNodup w) (hstep : fu_device_list_add w d' = (w1, evs)) :
    regNodup w1 ∧
    traceAccept (isLive w d) (projEvents d evs) = some (isLive w1 d) := by
  cases haf : fu_device_list_find_by_device w.dl d' with
  | none =>
      have hadd : fu_device_list_add w d'
          = (⟨⟨w.dl.devices ++ [⟨d', none⟩]⟩, w.dev⟩, [Ev.added d']) := by
        unfold fu_device_list_add
        rw [haf]
      rw [hadd] at hstep
      injection hstep with h1 h2
      subst h1
      subst h2
      have hnotin : d' ∉ w.dl.devices.map (fun it => it.device) := by
        intro hmem
        obtain ⟨x, hx, hxd⟩ := List.mem_map.mp hmem
        have h' : w.dl.devices.find? (fun it => it.device == d') = none := haf
        rw [List.find?_eq_none] at h'
        exact absurd (by simp [hxd]) (h' x hx)
      constructor
      · show (List.map (fun it : FuDeviceItem => it.device)
            (w.dl.devices ++ [(⟨d', none⟩ : FuDeviceItem)])).Nodup
        rw [List.map_append, List.nodup_append]
        refine ⟨hnodup, by simp, ?_⟩
        simp only [List.map_cons, List.map_nil]
        rw [List.disjoint_singleton]
        exact hnotin
      · by_cases hd : d' = d
        · subst hd
          have hlive : isLive w d' = false := by
            unfold isLive
            rw [haf]
            rfl
          have hlive2 : isLive ⟨⟨w.dl.devices ++ [⟨d', none⟩]⟩, w.dev⟩ d' = true := by
            unfold isLive fu_device_list_find_by_device
            show (List.find? (fun x => x.device == d')
                (w.dl.devices ++ [(⟨d', none⟩ : FuDeviceItem)])).isSome = true
            rw [List.find?_append]
            have h' : w.dl.devices.find? (fun x => x.device == d') = none := haf
            rw [h']
            simp [List.find?]
          rw [projEvents_single_same d' (Ev.added d') rfl, hlive, hlive2]
          rfl
        · rw [projEvents_single_other d (Ev.added d') (by simpa [evDevice] using hd)]
          have hsame : isLive ⟨⟨w.dl.devices ++ [⟨d', none⟩]⟩, w.dev⟩ d = isLive w d := by
            unfold isLive fu_device_list_find_by_device
            show (List.find? (fun x => x.device == d)
                (w.dl.devices ++ [(⟨d', none⟩ : FuDeviceItem)])).isSome = _
            rw [List.find?_append]
            have hsingle : ([⟨d', none⟩] : List FuDeviceItem).find?
                (fun x => x.device == d) = none := by
              rw [List.find?_eq_none]
              intro x hx
              simp only [List.mem_singleton] at hx
              subst hx
              simpa using hd
            rw [hsingle]
            cases w.dl.devices.find? (fun x => x.device == d) <;> rfl
          rw [hsame]
          rfl
  | some it =>
      have hadd : fu_device_list_add w d'
          = (⟨⟨updateFirst (fun x => x.device == d')
                (fun x => { x with remove_id := none }) w.dl.devices⟩, w.dev⟩,
             [Ev.changed d']) := by
        unfold fu_device_list_add
        rw [haf]
      rw [hadd] at hstep
      injection hstep with h1 h2
      subst h1
      subst h2
      have hf : ∀ x : FuDeviceItem,
          ((fun y : FuDeviceItem => { y with remove_id := none }) x).device = x.device :=
        fun _ => rfl
      refine ⟨regNodup_updateFirst w w.dev d' _ hf hnodup, ?_⟩
      have hsame := isLive_of_updateFirst w w.dev d d'
        (fun y : FuDeviceItem => { y with remove_id := none }) hf
      by_cases hd : d' = d
      · subst hd
        have hlive : isLive w d' = true := by
          unfold isLive
          rw [haf]
          rfl
        rw [projEvents_single_same d' (Ev.changed d') rfl, hlive, hsame, hlive]
        rfl
      · rw [projEvents_single_other d (Ev.changed d') (by simpa [evDevice] using hd), hsame]
        rfl

lemma remove_liveness (w w1 : World) (evs : List Ev) (d d' : Nat)
    (hnodup : regNodup w) (hstep : fu_device_list_remove w d' = (w1, evs)) :
    regNodup w1 ∧
    traceAccept (isLive w d) (projEvents d evs) = some (isLive w1 d) := by
  cases haf : fu_device_list_find_by_device w.dl d' with
  | none =>
      have hrem : fu_device_list_remove w d' = (w, []) := by
        unfold fu_device_list_remove
        rw [haf]
      rw [hrem] at hstep
      injection hstep with h1 h2
      subst h1
      subst h2
      exact ⟨hnodup, rfl⟩
  | some it =>
      by_cases hD : (w.dev it.device).remove_delay > 0
      · have hrem : fu_device_list_remove w d'
            = (⟨⟨updateFirst (fun x => x.device == d')
                  (fun x => { x with remove_id := some (w.dev it.device).remove_delay })
                  w.dl.devices⟩,
                fun a => if a = it.device then
                    { w.dev a with flags := FWUPD_DEVICE_FLAG_NONE }
                  else w.dev a⟩, []) := by
          unfold fu_device_list_remove
          rw [haf]
          exact if_pos hD
        rw [hrem] at hstep
        injection hstep with h1 h2
        subst h1
        subst h2
        have hf : ∀ x : FuDeviceItem, ((fun y : FuDeviceItem =>
            { y with remove_id := some (w.dev it.device).remove_delay }) x).device
              = x.device := fun _ => rfl
        refine ⟨regNodup_updateFirst w _ d' _ hf hnodup, ?_⟩
        rw [isLive_of_updateFirst w _ d d' _ hf]
        rfl
      · have hrem : fu_device_list_remove w d'
            = (⟨⟨w.dl.devices.eraseP (fun x => x.device == d')⟩, w.dev⟩,
               [Ev.removed d']) := by
          unfold fu_device_list_remove
          rw [haf]
          exact if_neg hD
        rw [hrem] at hstep
        injection hstep with h1 h2
        subst h1
        subst h2
        refine ⟨regNodup_erase w w.dev _ hnodup, ?_⟩
        by_cases hd : d' = d
        · subst hd
          have hlive : isLive w d' = true := by
            unfold isLive
            rw [haf]
            rfl
          rw [projEvents_single_same d' (Ev.removed d') rfl, hlive,
            isLive_erase_self w w.dev d' hnodup]
          rfl
        · rw [projEvents_single_other d (Ev.removed d') (by simpa [evDevice] using hd),
            isLive_erase_other w w.dev d d' hd]
          rfl

lemma fire_liveness (w w1 : World) (evs : List Ev) (d d' : Nat)
    (hnodup : regNodup w) (hstep : fu_device_list_fire w d' = (w1, evs)) :
    regNodup w1 ∧
    traceAccept (isLive w d) (projEvents d evs) = some (isLive w1 d) := by
  cases haf : fu_device_list_find_by_device w.dl d' with
  | none =>
      have hfire : fu_device_list_fire w d' = (w, []) := by
        unfold fu_device_list_fire
        rw [haf]
      rw [hfire] at hstep
      injection hstep with h1 h2
      subst h1
      subst h2
      exact ⟨hnodup, rfl⟩
  | some it =>
      by_cases hp : it.remove_id.isSome = true
      · have hfire : fu_device_list_fire w d'
            = (⟨⟨w.dl.devices.eraseP (fun x => x.device == d')⟩, w.dev⟩,
               [Ev.removed d']) := by
          unfold fu_device_list_fire
          rw [haf]
          exact if_pos hp
        rw [hfire] at hstep
        injection hstep with h1 h2
        subst h1
        subst h2
        refine ⟨regNodup_erase w w.dev _ hnodup, ?_⟩
        by_cases hd : d' = d
        · subst hd
          have hlive : isLive w d' = true := by
            unfold isLive
            rw [haf]
            rfl
          rw [projEvents_single_same d' (Ev.removed d') rfl, hlive,
            isLive_erase_self w w.dev d' hnodup]
          rfl
        · rw [projEvents_single_other d (Ev.removed d') (by simpa [evDevice] using hd),
            isLive_erase_other w w.dev d d' hd]
          rfl
      · have hfire : fu_device_list_fire w d' = (w, []) := by
          unfold fu_device_list_fire
          rw [haf]
          exact if_neg hp
        rw [hfire] at hstep
        injection hstep with h1 h2
        subst h1
        subst h2
        exact ⟨hnodup, rfl⟩

lemma stepOp_liveness (w w1 : World) (evs : List Ev) (op : Op) (d : Nat)
    (hnodup : regNodup w) (hstep : stepOp w op = (w1, evs)) :
    regNodup w1 ∧
    traceAccept (isLive w d) (projEvents d evs) = some (isLive w1 d) := by
  cases op with
  | add d' => exact add_liveness w w1 evs d d' hnodup hstep
  | remove d' => exact remove_liveness w w1 evs d d' hnodup hstep
  | fire d' => exact fire_liveness w w1 evs d d' hnodup hstep

lemma runOps_liveness (d : Nat) :
    ∀ (ops : List Op) (w : World), regNodup w →
      traceAccept (isLive w d) (projEvents d (runOps w ops).2)
        = some (isLive (runOps w ops).1 d)
  | [], _, _ => rfl
  | op :: ops, w, hnodup => by
      rcases hso : stepOp w op with ⟨wa, evs1⟩
      rcases hro : runOps wa ops with ⟨wb, evs2⟩
      have hrun : runOps w (op :: ops) = (wb, evs1 ++ evs2) := by
        show (match stepOp w op with
          | (x, u) =>
            match runOps x ops with
            | (y, v) => (y, u ++ v)) = (wb, evs1 ++ evs2)
        rw [hso]
        show (match runOps wa ops with
          | (y, v) => (y, evs1 ++ v)) = (wb, evs1 ++ evs2)
        rw [hro]
      have hone := stepOp_liveness w wa evs1 op d hnodup hso
      have ih := runOps_liveness d ops wa hone.1
      rw [hro] at ih
      rw [hrun, projEvents_append]
      rw [traceAccept_append (projEvents d evs1) (projEvents d evs2)
        (isLive w d) (isLive wa d) hone.2]
      exact ih

/-- C6.  For every device address `d`, every device heap and every sequence
of `add`/`remove` calls and timer firings starting from a fresh registry,
the emitted event stream restricted to `d` is accepted by the automaton of
the grammar `(added changed* removed)* (added changed*)?` — the dangling
`added changed*` group being present exactly when `d` is still in the
registry at the end.  In particular two consecutive emissions for `d` are
never both `added` (the automaton rejects `added` in the live state). -/
theorem event_stream_grammar (heap : Nat → FuDevice) (ops : List Op) (d : Nat) :
    traceAccept false (projEvents d (runOps (initWorld heap) ops).2)
      = some (isLive (runOps (initWorld heap) ops).1 d) :=
  runOps_liveness d ops (initWorld heap) List.nodup_nil
